import Mathlib

/-!
Verification of the core numerical routines of the Satellite_Positioning_Project
repository: the Kepler-equation solver and ECEF position transform of
`compute_satellite_position.py`, and the channel interpolation of
`interpolate_orbital_params.py`.

Modelling conventions:
* Python floats are modelled as real numbers (`ℝ`) for the transform and as
  rationals (`ℚ`) for the interpolator (whose arithmetic is field arithmetic).
* `np.sin` / `np.cos` are modelled by `Real.sin` / `Real.cos`; where a result
  does not depend on the trigonometric functions they are kept as parameters.
* A NaN ("missing") value in a data column is modelled as `none : Option ℚ`.
* A Python exception escaping a function is modelled by the function returning
  `none`; a normal return is `some`.
* A dictionary key that may be absent (`dict.get`) is an `Option` field.
-/

namespace SatPos

noncomputable section

/-- Default tolerance of `kepler_solver` (`tol=1e-12` in the source). -/
def tol : ℝ := 1e-12

/-- Default iteration cap of `kepler_solver` (`max_iter=100` in the source). -/
def max_iter : ℕ := 100

/-- One step of the loop body of `kepler_solver`:
`f = E - e*sin(E) - M; f_prime = 1 - e*cos(E); delta = -f/f_prime; E += delta`.
The trigonometric functions are parameters (they model `np.sin`, `np.cos`). -/
def newtonNext (sin cos : ℝ → ℝ) (M_i e_i El : ℝ) : ℝ :=
  El + -(El - e_i * sin El - M_i) / (1 - e_i * cos El)

/-- The loop of `kepler_solver`, with explicit fuel: each iteration updates `E`
by the Newton step and breaks out when `abs(delta) < tol`. -/
def keplerGo (sin cos : ℝ → ℝ) (M_i e_i : ℝ) : ℕ → ℝ → ℝ
  | 0, El => El
  | fuel + 1, El =>
    let delta := -(El - e_i * sin El - M_i) / (1 - e_i * cos El)
    let El2 := El + delta
    if |delta| < tol then El2 else keplerGo sin cos M_i e_i fuel El2

/-- The function `kepler_solver(M_i, e_i, tol=1e-12, max_iter=100)` from
`compute_satellite_position.py`: Newton-Raphson with initial guess `E = M_i`,
at most 100 iterations, early exit when the last update is below `1e-12`. -/
def kepler_solver (sin cos : ℝ → ℝ) (M_i e_i : ℝ) : ℝ :=
  keplerGo sin cos M_i e_i max_iter M_i

/-- The pure Newton-Raphson iterate sequence for Kepler's equation, starting
from the initial guess `E₀ = M_i`. -/
def xseq (sin cos : ℝ → ℝ) (M_i e_i : ℝ) : ℕ → ℝ
  | 0 => M_i
  | k + 1 => newtonNext sin cos M_i e_i (xseq sin cos M_i e_i k)


/-- Earth's universal gravitational parameter (`mu = 3.986005e14` in the
source, m^3/s^2). -/
def mu : ℝ := 3.986005e14

/-- Model of `np.arctan2 y x` (two-argument arctangent). -/
def atan2 (y x : ℝ) : ℝ :=
  if 0 < x then Real.arctan (y / x)
  else if x < 0 then
    (if 0 ≤ y then Real.arctan (y / x) + Real.pi else Real.arctan (y / x) - Real.pi)
  else
    (if 0 < y then Real.pi / 2 else if y < 0 then -(Real.pi / 2) else 0)

/-- Scalar inputs of one epoch of `compute_satellite_position`: the value of
each of the nine required channels at that epoch, together with the epoch
index `k` (the source uses `np.arange(n)` as a proxy for a time vector, so the
index enters the inclination and node formulas). -/
structure EpochParams where
  sqrtA : ℝ
  e : ℝ
  i0 : ℝ
  omega : ℝ
  OMEGA : ℝ
  M0 : ℝ
  delta_n : ℝ
  OMEGA_DOT : ℝ
  IDOT : ℝ
  k : ℕ

namespace CSP

/-- Semi-major axis, `A = sqrtA**2`. -/
def A (p : EpochParams) : ℝ := p.sqrtA ^ 2

/-- Computed mean motion, `n0 = np.sqrt(mu / A**3)`. -/
def n0 (p : EpochParams) : ℝ := Real.sqrt (mu / (A p) ^ 3)

/-- Corrected mean motion, `n_corr = n0 + delta_n` (computed by the source but
never used afterwards). -/
def n_corr (p : EpochParams) : ℝ := n0 p + p.delta_n

/-- The mean anomaly actually used by the source: the line `M = M0` passes the
`M0` channel through unchanged. -/
def M (p : EpochParams) : ℝ := p.M0

/-- Eccentric anomaly: `kepler_solver(M[i], e[i])` with `np.sin`, `np.cos`. -/
def Ecc (p : EpochParams) : ℝ := kepler_solver Real.sin Real.cos (M p) p.e

/-- Numerator-stable true-anomaly sine:
`sin_v = sqrt(1 - e**2) * sin(E) / (1 - e*cos(E))`. -/
def sin_v (p : EpochParams) : ℝ :=
  Real.sqrt (1 - p.e ^ 2) * Real.sin (Ecc p) / (1 - p.e * Real.cos (Ecc p))

/-- True-anomaly cosine, `cos_v = (cos(E) - e) / (1 - e*cos(E))`. -/
def cos_v (p : EpochParams) : ℝ :=
  (Real.cos (Ecc p) - p.e) / (1 - p.e * Real.cos (Ecc p))

/-- True anomaly, `v = np.arctan2(sin_v, cos_v)`. -/
def v (p : EpochParams) : ℝ := atan2 (sin_v p) (cos_v p)

/-- Argument of latitude, `u = v + omega`. -/
def u (p : EpochParams) : ℝ := v p + p.omega

/-- Corrected radius, `r = A * (1 - e*np.cos(E))`. -/
def r (p : EpochParams) : ℝ := A p * (1 - p.e * Real.cos (Ecc p))

/-- Corrected inclination: the source computes `i = i0 + IDOT * np.arange(n)`,
using the epoch index as a time proxy. -/
def i (p : EpochParams) : ℝ := p.i0 + p.IDOT * (p.k : ℝ)

/-- Corrected longitude of ascending node: the source computes
`Omega = OMEGA + OMEGA_DOT * np.arange(n)`, using the epoch index as a time
proxy and applying no Earth-rotation term. -/
def Omega (p : EpochParams) : ℝ := p.OMEGA + p.OMEGA_DOT * (p.k : ℝ)

/-- In-plane x, `x_orb = r * np.cos(u)`. -/
def x_orb (p : EpochParams) : ℝ := r p * Real.cos (u p)

/-- In-plane y, `y_orb = r * np.sin(u)`. -/
def y_orb (p : EpochParams) : ℝ := r p * Real.sin (u p)

/-- ECEF X, `X = x_orb*np.cos(Omega) - y_orb*np.cos(i)*np.sin(Omega)`. -/
def X (p : EpochParams) : ℝ :=
  x_orb p * Real.cos (Omega p) - y_orb p * Real.cos (i p) * Real.sin (Omega p)

/-- ECEF Y, `Y = x_orb*np.sin(Omega) + y_orb*np.cos(i)*np.cos(Omega)`. -/
def Y (p : EpochParams) : ℝ :=
  x_orb p * Real.sin (Omega p) + y_orb p * Real.cos (i p) * Real.cos (Omega p)

/-- ECEF Z, `Z = y_orb*np.sin(i)`. -/
def Z (p : EpochParams) : ℝ := y_orb p * Real.sin (i p)

end CSP

/-- Input of `compute_satellite_position`: a dictionary of channels. A channel
absent from the dictionary is `none` (in the source, `dict.get` then returns
`None`). The `tk` field records the channel that callers of the function add
to the dictionary. -/
structure OrbitalParams where
  sqrtA : Option (List ℝ)
  e : Option (List ℝ)
  i0 : Option (List ℝ)
  omega : Option (List ℝ)
  OMEGA : Option (List ℝ)
  M0 : Option (List ℝ)
  delta_n : Option (List ℝ)
  OMEGA_DOT : Option (List ℝ)
  IDOT : Option (List ℝ)
  tk : Option (List ℝ)

/-- The function `compute_satellite_position(orbital_params)` of the source.
An absent channel (`dict.get` returning `None`) makes the Python function
raise exactly when the `None` is actually consumed: `len(None)` for `sqrtA`
(always), the Python-level expression `1 - e**2` on the `sin_v` line for `e`
(always, it sits outside every loop), and, for each of the other seven
channels, an elementwise numpy operation over `n = len(sqrtA)` elements,
which raises exactly when `n > 0` — with `n = 0` every elementwise loop is
empty, nothing touches the `None`, and the call completes with empty
`X, Y, Z` arrays. A raised exception is modelled by `none`. Numpy length-1
broadcasting and mismatched channel lengths (a broadcast `ValueError`) are
not modelled: present channels are required to have length `n`, as the
pipeline guarantees. The `tk` entry of the dictionary is never read. On
success the result is the `{X, Y, Z}` triple of coordinate arrays. -/
def compute_satellite_position (op : OrbitalParams) :
    Option (List ℝ × List ℝ × List ℝ) :=
  match op.sqrtA, op.e, op.i0, op.omega, op.OMEGA, op.M0, op.delta_n,
      op.OMEGA_DOT, op.IDOT with
  | some sqrtA, some e, some i0, some omega, some OMEGA, some M0, some delta_n,
      some OMEGA_DOT, some IDOT =>
    let n := sqrtA.length
    if e.length = n ∧ i0.length = n ∧ omega.length = n ∧ OMEGA.length = n ∧
        M0.length = n ∧ delta_n.length = n ∧ OMEGA_DOT.length = n ∧
        IDOT.length = n then
      let par : ℕ → EpochParams := fun k =>
        ⟨sqrtA.getD k 0, e.getD k 0, i0.getD k 0, omega.getD k 0,
          OMEGA.getD k 0, M0.getD k 0, delta_n.getD k 0, OMEGA_DOT.getD k 0,
          IDOT.getD k 0, k⟩
      some ((List.range n).map (fun k => CSP.X (par k)),
            (List.range n).map (fun k => CSP.Y (par k)),
            (List.range n).map (fun k => CSP.Z (par k)))
    else none
  | some sqrtA, some e, i0, omega, OMEGA, M0, delta_n, OMEGA_DOT, IDOT =>
    if sqrtA.length = 0 ∧ e.length = 0 ∧ (i0.getD []).length = 0 ∧
        (omega.getD []).length = 0 ∧ (OMEGA.getD []).length = 0 ∧
        (M0.getD []).length = 0 ∧ (delta_n.getD []).length = 0 ∧
        (OMEGA_DOT.getD []).length = 0 ∧ (IDOT.getD []).length = 0 then
      some ([], [], [])
    else none
  | _, _, _, _, _, _, _, _, _ => none

/-- The spec's step 4 formula for the mean anomaly, written from the spec text:
`M = (M0 + n·tk) mod 2π`, normalized into `[0, 2π)` (the floor form of the
nonnegative remainder). -/
def spec_mean_anomaly (M0 nc tk : ℝ) : ℝ :=
  (M0 + nc * tk) - 2 * Real.pi * ⌊(M0 + nc * tk) / (2 * Real.pi)⌋

/-- Earth's rotation rate used by the spec, `ωe = 7.2921151467e-5` rad/s. -/
def omega_e : ℝ := 7.2921151467e-5

/-- The spec's step 10 formula for the corrected longitude of ascending node,
written from the spec text: `Ω = OMEGA + (OMEGA_DOT − ωe)·tk`. -/
def spec_Omega (OMEGA OMEGA_DOT tk : ℝ) : ℝ :=
  OMEGA + (OMEGA_DOT - omega_e) * tk

end

/-- Linear interpolation on one segment from `p` to `q`:
`y = p.2 + (q.2 - p.2) * (t - p.1) / (q.1 - p.1)`. -/
def evalSeg (p q : ℚ × ℚ) (t : ℚ) : ℚ :=
  p.2 + (q.2 - p.2) * (t - p.1) / (q.1 - p.1)

/-- Model of `scipy.interpolate.interp1d(x, y, kind='linear',
bounds_error=False, fill_value='extrapolate')` applied to the list of valid
`(time, value)` pairs (assumed sorted by time with distinct times, as the
pipeline guarantees): evaluation walks to the first segment whose right
endpoint is at or past `t` and evaluates that segment's line, so a `t` below
the first sample extrapolates the first segment and a `t` past the last sample
extrapolates the last segment. On fewer than two pairs (a case the caller
rules out) the result is the junk value `0`. -/
def interpLinear : List (ℚ × ℚ) → ℚ → ℚ
  | p :: q :: s :: rest, t =>
    if t ≤ q.1 then evalSeg p q t else interpLinear (q :: s :: rest) t
  | [p, q], t => evalSeg p q t
  | _, _ => 0

/-- The valid `(time, value)` pairs of one channel: the pairs whose value is
not the missing sentinel (`valid_mask = ~np.isnan(y)` in the source). -/
def validPairs (times : List ℚ) (y : List (Option ℚ)) : List (ℚ × ℚ) :=
  (times.zip y).filterMap (fun p => p.2.map (fun val => (p.1, val)))

/-- Per-channel body of the loop of `interpolate_orbital_params`: with fewer
than 2 valid samples the output is the missing sentinel at every target epoch
(`np.full_like(target_seconds, np.nan)`); otherwise the linear interpolant fit
on the valid pairs is evaluated at every target epoch. -/
def channelOutput (times : List ℚ) (y : List (Option ℚ)) (targets : List ℚ) :
    List (Option ℚ) :=
  if (validPairs times y).length < 2 then targets.map (fun _ => none)
  else targets.map (fun t => some (interpLinear (validPairs times y) t))

/-- Values of column `j` across the rows of the navigation frame. -/
def columnVals (rows : List (ℚ × List (Option ℚ))) (j : ℕ) : List (Option ℚ) :=
  rows.map (fun row => row.2.getD j none)

/-- Number of valid (non-missing) samples of column `j`. -/
def numValid (rows : List (ℚ × List (Option ℚ))) (j : ℕ) : ℕ :=
  ((columnVals rows j).filterMap id).length

/-- Sorting of the navigation frame by timestamp (`nav_data.sort_index()`,
a stable sort). -/
def sortedRows (rows : List (ℚ × List (Option ℚ))) :
    List (ℚ × List (Option ℚ)) :=
  List.insertionSort (fun a b => a.1 ≤ b.1) rows

/-- The shared time origin `base_time = nav_data.index[0]` (after sorting). -/
def baseTime (rows : List (ℚ × List (Option ℚ))) : ℚ :=
  match sortedRows rows with
  | [] => 0
  | row :: _ => row.1

/-- The function `interpolate_orbital_params(nav_data, time_list)` of the
source. The navigation frame is modelled as a list of rows (timestamp in
seconds, per-column optional values) plus the column-name list; timestamps are
rationals (seconds), so the `(t - base_time).total_seconds()` conversions are
plain subtraction of the earliest (post-sort) timestamp. `nav_data.empty`
(no rows or no columns) raises a `ValueError`, modelled as `none`. -/
def interpolate_orbital_params (rows : List (ℚ × List (Option ℚ)))
    (cols : List String) (targets : List ℚ) :
    Option (List (String × List (Option ℚ))) :=
  if rows = [] ∨ cols = [] then none
  else
    some (cols.enum.map (fun nj =>
      (nj.2, channelOutput
        ((sortedRows rows).map (fun row => row.1 - baseTime rows))
        ((sortedRows rows).map (fun row => row.2.getD nj.1 none))
        (targets.map (fun t => t - baseTime rows)))))

noncomputable section

/-- Concrete epoch input exhibiting the mean-anomaly divergence: `M0 = 7`
(which lies outside `[0, 2π)`), all perturbations zero, `sqrtA = 1`, first
epoch. -/
def pM7 : EpochParams := ⟨1, 0, 0, 0, 0, 7, 0, 0, 0, 0⟩

/-- Concrete epoch input exhibiting the node divergence: `OMEGA = 1/2`,
`OMEGA_DOT = 0`, all other channels zero, first epoch. -/
def pNode : EpochParams := ⟨1, 0, 0, 0, 1/2, 0, 0, 0, 0, 0⟩

/-- Concrete transform input whose `delta_n` channel is absent. -/
def opMissingDeltaN : OrbitalParams :=
  ⟨some [1], some [0], some [0], some [0], some [0], some [0], none,
    some [0], some [0], some [0]⟩

/-- Concrete transform input whose `M0` channel is absent. -/
def opMissingM0 : OrbitalParams :=
  ⟨some [1], some [0], some [0], some [0], some [0], none, some [0],
    some [0], some [0], some [0]⟩

/-- Concrete transform input with all nine physical channels present but no
`tk` channel. -/
def opNoTk : OrbitalParams :=
  ⟨some [1], some [0], some [0], some [0], some [0], some [0], some [0],
    some [0], some [0], none⟩

end

-- ## Lemmas and theorems

lemma keplerGo_succ (sin cos : ℝ → ℝ) (M_i e_i : ℝ) (fuel : ℕ) (El : ℝ) :
    keplerGo sin cos M_i e_i (fuel + 1) El =
      (if |(-(El - e_i * sin El - M_i) / (1 - e_i * cos El))| < tol then
        El + -(El - e_i * sin El - M_i) / (1 - e_i * cos El)
      else keplerGo sin cos M_i e_i fuel
        (El + -(El - e_i * sin El - M_i) / (1 - e_i * cos El))) := rfl

lemma xseq_succ_eq (sin cos : ℝ → ℝ) (M_i e_i : ℝ) (m : ℕ) :
    xseq sin cos M_i e_i (m + 1) =
      xseq sin cos M_i e_i m +
        -(xseq sin cos M_i e_i m - e_i * sin (xseq sin cos M_i e_i m) - M_i) /
          (1 - e_i * cos (xseq sin cos M_i e_i m)) := rfl

/-- Characterization of the loop from an arbitrary iterate: with positive fuel
`F`, starting at iterate `m`, the loop returns iterate `k` for some
`m < k ≤ m + F`; all updates strictly before the last one were at least `tol`
in magnitude, and either the final update was below `tol` (early break) or the
fuel ran out (`k = m + F`). -/
lemma keplerGo_spec (sin cos : ℝ → ℝ) (M_i e_i : ℝ) :
    ∀ F : ℕ, 0 < F → ∀ m : ℕ,
      ∃ k : ℕ, m < k ∧ k ≤ m + F ∧
        keplerGo sin cos M_i e_i F (xseq sin cos M_i e_i m) = xseq sin cos M_i e_i k ∧
        (∀ j : ℕ, m ≤ j → j + 1 < k →
          tol ≤ |xseq sin cos M_i e_i (j + 1) - xseq sin cos M_i e_i j|) ∧
        (|xseq sin cos M_i e_i k - xseq sin cos M_i e_i (k - 1)| < tol ∨ k = m + F) := by
  intro F
  induction F with
  | zero => intro h; omega
  | succ F ih =>
    intro _ m
    have hdelta : -(xseq sin cos M_i e_i m - e_i * sin (xseq sin cos M_i e_i m) - M_i) /
        (1 - e_i * cos (xseq sin cos M_i e_i m)) =
        xseq sin cos M_i e_i (m + 1) - xseq sin cos M_i e_i m := by
      rw [xseq_succ_eq]; ring
    rw [keplerGo_succ, hdelta]
    by_cases hbr : |xseq sin cos M_i e_i (m + 1) - xseq sin cos M_i e_i m| < tol
    · refine ⟨m + 1, by omega, by omega, ?_, ?_, ?_⟩
      · simp only [hbr, if_true]
        ring
      · intro j h1 h2; omega
      · left; simpa using hbr
    · rcases Nat.eq_zero_or_pos F with hF0 | hFpos
      · subst hF0
        refine ⟨m + 1, by omega, by omega, ?_, ?_, ?_⟩
        · simp only [hbr, if_false]
          show xseq sin cos M_i e_i m +
              (xseq sin cos M_i e_i (m + 1) - xseq sin cos M_i e_i m) =
              xseq sin cos M_i e_i (m + 1)
          ring
        · intro j h1 h2; omega
        · right; omega
      · obtain ⟨k, hk1, hk2, hk3, hk4, hk5⟩ := ih hFpos (m + 1)
        refine ⟨k, by omega, by omega, ?_, ?_, ?_⟩
        · simp only [hbr, if_false]
          have : xseq sin cos M_i e_i m +
              (xseq sin cos M_i e_i (m + 1) - xseq sin cos M_i e_i m) =
              xseq sin cos M_i e_i (m + 1) := by ring
          rw [this, hk3]
        · intro j h1 h2
          rcases Nat.eq_or_lt_of_le h1 with rfl | hlt
          · exact le_of_not_lt hbr
          · exact hk4 j hlt h2
        · rcases hk5 with h | h
          · left; exact h
          · right; omega

/-- Claim C10: for every input epoch of `compute_satellite_position`, the
returned coordinates satisfy `X² + Y² + Z² = r²` in exact real arithmetic,
where `r = A·(1 − e·cos E)` is the orbital radius of that epoch: the
node/inclination rotation to ECEF preserves the position's norm regardless of
the values of `OMEGA`, `OMEGA_DOT`, `i0` and `IDOT`. -/
theorem position_norm_eq_radius (p : EpochParams) :
    CSP.X p ^ 2 + CSP.Y p ^ 2 + CSP.Z p ^ 2 = CSP.r p ^ 2 := by
  simp only [CSP.X, CSP.Y, CSP.Z, CSP.x_orb, CSP.y_orb]
  have h1 := Real.sin_sq_add_cos_sq (CSP.Omega p)
  have h2 := Real.sin_sq_add_cos_sq (CSP.i p)
  have h3 := Real.sin_sq_add_cos_sq (CSP.u p)
  linear_combination
    (CSP.r p ^ 2 * Real.cos (CSP.u p) ^ 2 +
      CSP.r p ^ 2 * Real.sin (CSP.u p) ^ 2 * Real.cos (CSP.i p) ^ 2) * h1 +
    CSP.r p ^ 2 * Real.sin (CSP.u p) ^ 2 * h2 + CSP.r p ^ 2 * h3

/-- Claim C5: for every mean anomaly and eccentricity (and any functions in
the role of `np.sin`/`np.cos`), `kepler_solver` performs Newton-Raphson from
the initial guess `E₀ = M`: it returns the `k`-th Newton iterate for some
`1 ≤ k ≤ 100`, where every update strictly before the last had magnitude at
least `1e-12` and either the final update's magnitude was below `1e-12`
(early termination) or the 100-iteration cap was reached; being a total
function it always returns this value and never signals a convergence
failure. -/
theorem kepler_solver_characterization (sin cos : ℝ → ℝ) (M_i e_i : ℝ) :
    ∃ k : ℕ, 1 ≤ k ∧ k ≤ max_iter ∧
      kepler_solver sin cos M_i e_i = xseq sin cos M_i e_i k ∧
      (∀ j : ℕ, j + 1 < k →
        tol ≤ |xseq sin cos M_i e_i (j + 1) - xseq sin cos M_i e_i j|) ∧
      (|xseq sin cos M_i e_i k - xseq sin cos M_i e_i (k - 1)| < tol ∨
        k = max_iter) := by
  obtain ⟨k, h1, h2, h3, h4, h5⟩ :=
    keplerGo_spec sin cos M_i e_i max_iter (by norm_num [max_iter]) 0
  exact ⟨k, h1, by simpa using h2, h3, fun j hj => h4 j (Nat.zero_le j) hj,
    by simpa using h5⟩

/-- Claim C4 (counterexample): on an input whose `tk` channel is absent but
whose nine physical channels are present, `compute_satellite_position` does
not fail at all — it completes and returns coordinate arrays, contradicting
the claim that it fails fast with an `InvalidEphemerisError`. -/
theorem compute_position_completes_without_tk :
    (compute_satellite_position opNoTk).isSome = true := rfl

/-- Claim C4 (amended): `compute_satellite_position` never reads the `tk`
channel: its result is entirely independent of the `tk` entry, so the absence
of `tk` causes no error and the output length is implied by the `sqrtA`
channel instead. -/
theorem compute_position_ignores_tk (op : OrbitalParams)
    (t1 t2 : Option (List ℝ)) :
    compute_satellite_position { op with tk := t1 } =
      compute_satellite_position { op with tk := t2 } := rfl

/-- Claim C3 (counterexample): on an input whose `delta_n` channel is absent
(all other channels present), `compute_satellite_position` fails (the `None`
returned by `dict.get` flows into arithmetic and raises) instead of treating
the channel as zeros and completing. -/
theorem compute_position_no_zero_fill :
    compute_satellite_position opMissingDeltaN = none := rfl

/-- Claim C3 (amended): a required channel absent from the input mapping is
never zero-filled, and no missing-sentinel element is replaced by zero
anywhere. Instead, `compute_satellite_position` fails whenever the absent
channel's `None` is consumed: always when `sqrtA` is absent (`len(None)`) or
`e` is absent (`1 - e**2` on `None`), and, for the other seven channels,
whenever the epoch count `n = len(sqrtA)` is nonzero (each is consumed
elementwise); only in the degenerate `n = 0` case does the call complete,
with empty arrays, the `None` never being touched. -/
theorem compute_position_missing_channel_fails :
    (∀ op : OrbitalParams, op.sqrtA = none →
      compute_satellite_position op = none) ∧
    (∀ op : OrbitalParams, op.e = none →
      compute_satellite_position op = none) ∧
    (∀ (op : OrbitalParams) (ls : List ℝ), op.sqrtA = some ls → ls ≠ [] →
      (op.i0 = none ∨ op.omega = none ∨ op.OMEGA = none ∨ op.M0 = none ∨
        op.delta_n = none ∨ op.OMEGA_DOT = none ∨ op.IDOT = none) →
      compute_satellite_position op = none) ∧
    compute_satellite_position
      ⟨some [], some [], none, none, none, none, none, none, none, none⟩ =
      some ([], [], []) := by
  refine ⟨?_, ?_, ?_, rfl⟩
  · rintro ⟨s, e2, i0, om, OM, M00, dn, OD, ID, tk⟩ h
    cases h
    rfl
  · rintro ⟨s, e2, i0, om, OM, M00, dn, OD, ID, tk⟩ h
    cases h
    cases s with
    | none => rfl
    | some ls => rfl
  · rintro ⟨s, e2, i0, om, OM, M00, dn, OD, ID, tk⟩ ls hs hne hsev
    cases hs
    have hlen : ls.length ≠ 0 := fun h0 => hne (List.length_eq_zero.mp h0)
    cases e2 with
    | none => rfl
    | some el =>
      rcases i0 with _ | i0 <;> rcases om with _ | om <;>
        rcases OM with _ | OM <;> rcases M00 with _ | M00 <;>
        rcases dn with _ | dn <;> rcases OD with _ | OD <;>
        rcases ID with _ | ID <;>
        simp_all [compute_satellite_position]

/-- Witness for the amended claim C3, at the concrete input whose `M0` channel
is absent while `sqrtA` is the nonempty `[1]`. -/
theorem compute_position_missing_channel_fails_witness :
    compute_satellite_position opMissingM0 = none :=
  compute_position_missing_channel_fails.2.2.1 opMissingM0 [1] rfl
    (by simp) (Or.inr (Or.inr (Or.inr (Or.inl rfl))))

/-- Claim C2: the source computes `Omega = OMEGA + OMEGA_DOT * np.arange(n)`,
so at the input with `OMEGA = 1/2`, `OMEGA_DOT = 0` and first epoch the output
node equals the input `OMEGA` exactly, whereas the spec formula
`Ω = OMEGA + (OMEGA_DOT − ωe)·tk` at `tk = 86164` differs from `OMEGA` by
`−ωe·86164 ≠ 0`: the code applies no Earth-rotation correction. -/
theorem node_code_vs_spec :
    CSP.Omega pNode = 1 / 2 ∧
      spec_Omega (1 / 2) 0 86164 ≠ CSP.Omega pNode := by
  constructor
  · norm_num [CSP.Omega, pNode]
  · norm_num [CSP.Omega, pNode, spec_Omega, omega_e]

/-- Claim C1: the source line `M = M0` uses the `M0` channel unchanged as the
mean anomaly; at the input with `M0 = 7` and `tk = 0` the code's mean anomaly
is `7`, while the spec value `(M0 + n·tk) mod 2π` is `7 − 2π ∈ [0, 2π)`; the
two differ, so no `mod 2π` normalization (and no `n·tk` propagation) is
performed. -/
theorem mean_anomaly_code_vs_spec :
    CSP.M pM7 = 7 ∧
      spec_mean_anomaly pM7.M0 (CSP.n_corr pM7) 0 = 7 - 2 * Real.pi ∧
      CSP.M pM7 ≠ spec_mean_anomaly pM7.M0 (CSP.n_corr pM7) 0 := by
  have hM0 : pM7.M0 = (7 : ℝ) := rfl
  have hfloor : ⌊(7 : ℝ) / (2 * Real.pi)⌋ = 1 := by
    rw [Int.floor_eq_iff]
    constructor
    · rw [le_div_iff₀ (by positivity)]
      push_cast
      nlinarith [Real.pi_lt_d2]
    · rw [div_lt_iff₀ (by positivity)]
      push_cast
      nlinarith [Real.pi_gt_d2]
  have hspec : spec_mean_anomaly pM7.M0 (CSP.n_corr pM7) 0 = 7 - 2 * Real.pi := by
    rw [spec_mean_anomaly, hM0, mul_zero, add_zero, hfloor]
    push_cast
    ring
  refine ⟨rfl, hspec, ?_⟩
  rw [show CSP.M pM7 = (7 : ℝ) from rfl, hspec]
  intro hc
  have : Real.pi = 0 := by linarith
  exact Real.pi_ne_zero this

/-- Claim C9 (counterexample): with a non-empty navigation frame but an empty
target-epoch list, `interpolate_orbital_params` does not fail: it returns a
result (per-channel empty arrays), contradicting the claim that it never
returns a result when no target epochs are supplied. -/
theorem interpolate_empty_targets_returns :
    interpolate_orbital_params [(0, [some 1]), (10, [some 2])] ["e"] [] =
      some [("e", [])] := by rfl

/-- Claim C9 (amended): `interpolate_orbital_params` fails fast exactly when
the backing frame is empty (no rows or no columns, the pandas `empty` test);
an empty target-epoch list alone does not make it fail. -/
theorem interpolate_none_iff_empty (rows : List (ℚ × List (Option ℚ)))
    (cols : List String) (targets : List ℚ) :
    interpolate_orbital_params rows cols targets = none ↔
      rows = [] ∨ cols = [] := by
  unfold interpolate_orbital_params
  split_ifs with h
  · exact iff_of_true rfl h
  · exact iff_of_false (by simp) h

lemma interpLinear_cons (a b : ℚ × ℚ) (l : List (ℚ × ℚ)) (hl : l ≠ [])
    (t : ℚ) :
    interpLinear (a :: b :: l) t =
      if t ≤ b.1 then evalSeg a b t else interpLinear (b :: l) t := by
  cases l with
  | nil => exact absurd rfl hl
  | cons c rest => rfl

lemma interpLinear_first_segment (p q : ℚ × ℚ) (post : List (ℚ × ℚ)) (t : ℚ)
    (ht : t ≤ q.1) :
    interpLinear (p :: q :: post) t = evalSeg p q t := by
  cases post with
  | nil => rfl
  | cons c rest => exact if_pos ht

lemma interpLinear_bracket (pre : List (ℚ × ℚ)) :
    ∀ (p q : ℚ × ℚ) (post : List (ℚ × ℚ)) (t : ℚ),
      List.Pairwise (fun s1 s2 => s1.1 < s2.1) (pre ++ p :: q :: post) →
      p.1 < t → t ≤ q.1 →
      interpLinear (pre ++ p :: q :: post) t = evalSeg p q t := by
  induction pre with
  | nil =>
    intro p q post t _ hpt htq
    cases post with
    | nil => rfl
    | cons c rest =>
      show (if t ≤ q.1 then evalSeg p q t else _) = evalSeg p q t
      exact if_pos htq
  | cons a pre ih =>
    intro p q post t hsort hpt htq
    have hsort2 : List.Pairwise (fun s1 s2 => s1.1 < s2.1)
        (pre ++ p :: q :: post) := by
      rw [List.cons_append, List.pairwise_cons] at hsort
      exact hsort.2
    have hrest : ∃ b l, pre ++ p :: q :: post = b :: l ∧ b.1 < t ∧ l ≠ [] := by
      cases pre with
      | nil => exact ⟨p, q :: post, rfl, hpt, by simp⟩
      | cons c pre2 =>
        refine ⟨c, pre2 ++ p :: q :: post, rfl, ?_, by simp⟩
        have hcp : c.1 < p.1 := by
          rw [List.cons_append, List.pairwise_cons] at hsort2
          exact hsort2.1 p (List.mem_append_right pre2 (List.mem_cons_self p _))
        exact lt_trans hcp hpt
    obtain ⟨b, l, hbl, hbt, hl⟩ := hrest
    rw [List.cons_append, hbl, interpLinear_cons a b l hl t,
      if_neg (not_le.mpr hbt), ← hbl]
    exact ih p q post t hsort2 hpt htq

lemma interpLinear_extrap_right (pre : List (ℚ × ℚ)) :
    ∀ (p q : ℚ × ℚ) (t : ℚ),
      List.Pairwise (fun s1 s2 => s1.1 < s2.1) (pre ++ [p, q]) →
      q.1 < t →
      interpLinear (pre ++ [p, q]) t = evalSeg p q t := by
  induction pre with
  | nil => intro p q t _ _; rfl
  | cons a pre ih =>
    intro p q t hsort hqt
    have hsort2 : List.Pairwise (fun s1 s2 => s1.1 < s2.1) (pre ++ [p, q]) := by
      rw [List.cons_append, List.pairwise_cons] at hsort
      exact hsort.2
    have hrest : ∃ b l, pre ++ [p, q] = b :: l ∧ b.1 < t ∧ l ≠ [] := by
      cases pre with
      | nil =>
        refine ⟨p, [q], rfl, ?_, by simp⟩
        have hpq : p.1 < q.1 := by
          rw [List.nil_append, List.pairwise_cons] at hsort2
          exact hsort2.1 q (List.mem_cons_self q _)
        exact lt_trans hpq hqt
      | cons c pre2 =>
        refine ⟨c, pre2 ++ [p, q], rfl, ?_, by simp⟩
        have hcq : c.1 < q.1 := by
          rw [List.cons_append, List.pairwise_cons] at hsort2
          exact hsort2.1 q
            (List.mem_append_right pre2 (List.mem_cons_of_mem p (List.mem_cons_self q _)))
        exact lt_trans hcq hqt
    obtain ⟨b, l, hbl, hbt, hl⟩ := hrest
    rw [List.cons_append, hbl, interpLinear_cons a b l hl t,
      if_neg (not_le.mpr hbt), ← hbl]
    exact ih p q t hsort2 hqt

/-- Claim C7: the per-channel interpolant of `interpolate_orbital_params` is
piecewise linear over the valid `(time, value)` pairs —
(1) a two-point channel evaluated at the midpoint time yields the mean of the
two values; (2) a target time bracketed by two adjacent samples evaluates to
the linear interpolation of that segment; (3) a target time at or before the
second sample — in particular any target before the first sample —
evaluates the first segment's line, so targets left of the span extrapolate
linearly along the first (nearest-boundary) segment, with no clipping and no
error; (4) a target time beyond the last sample extrapolates linearly along
the final segment, likewise unclipped; (5) concretely, samples `(0,1), (10,2)`
evaluated at `t = 20` yield `3`; and (6) a channel with at least 2 valid
samples has its output produced by exactly this interpolant at every target
epoch. -/
theorem interpolation_piecewise_linear :
    (∀ t0 t1 y0 y1 : ℚ, t0 < t1 →
      interpLinear [(t0, y0), (t1, y1)] ((t0 + t1) / 2) = (y0 + y1) / 2) ∧
    (∀ (pre : List (ℚ × ℚ)) (p q : ℚ × ℚ) (post : List (ℚ × ℚ)) (t : ℚ),
      List.Pairwise (fun s1 s2 => s1.1 < s2.1) (pre ++ p :: q :: post) →
      p.1 < t → t ≤ q.1 →
      interpLinear (pre ++ p :: q :: post) t = evalSeg p q t) ∧
    (∀ (p q : ℚ × ℚ) (post : List (ℚ × ℚ)) (t : ℚ), t ≤ q.1 →
      interpLinear (p :: q :: post) t = evalSeg p q t) ∧
    (∀ (pre : List (ℚ × ℚ)) (p q : ℚ × ℚ) (t : ℚ),
      List.Pairwise (fun s1 s2 => s1.1 < s2.1) (pre ++ [p, q]) → q.1 < t →
      interpLinear (pre ++ [p, q]) t = evalSeg p q t) ∧
    interpLinear [(0, 1), (10, 2)] 20 = 3 ∧
    (∀ (times : List ℚ) (y : List (Option ℚ)) (targets : List ℚ),
      2 ≤ (validPairs times y).length →
      channelOutput times y targets =
        targets.map (fun t => some (interpLinear (validPairs times y) t))) := by
  refine ⟨?_, interpLinear_bracket, interpLinear_first_segment,
    interpLinear_extrap_right, by norm_num [interpLinear, evalSeg], ?_⟩
  · intro t0 t1 y0 y1 hlt
    show evalSeg (t0, y0) (t1, y1) ((t0 + t1) / 2) = (y0 + y1) / 2
    rw [evalSeg]
    have h : t1 - t0 ≠ 0 := sub_ne_zero.mpr hlt.ne'
    field_simp
    ring
  · intro times y targets h2
    rw [channelOutput, if_neg (Nat.not_lt.mpr h2)]

/-- Witness for claim C7, evaluating the interpolant at concrete inputs:
midpoint of samples `(0,1), (10,2)`, left extrapolation at `t = -10`, and
right extrapolation at `t = 20`. -/
theorem interpolation_piecewise_linear_witness :
    interpLinear [(0, 1), (10, 2)] 5 = 3 / 2 ∧
      interpLinear [(0, 1), (10, 2)] (-10) = 0 ∧
      interpLinear [(0, 1), (10, 2)] 20 = 3 := by
  refine ⟨?_, ?_, ?_⟩
  · have h := interpolation_piecewise_linear.1 0 10 1 2 (by norm_num)
    norm_num at h
    exact h
  · have h := interpolation_piecewise_linear.2.2.1 (0, 1) (10, 2) [] (-10)
      (by norm_num)
    rw [h]
    norm_num [evalSeg]
  · exact interpolation_piecewise_linear.2.2.2.2.1

lemma validPairs_length_eq (ts : List ℚ) :
    ∀ ys : List (Option ℚ), ts.length = ys.length →
      (validPairs ts ys).length = (ys.filterMap id).length := by
  induction ts with
  | nil =>
    intro ys h
    cases ys with
    | nil => rfl
    | cons b ys => simp at h
  | cons a ts ih =>
    intro ys h
    cases ys with
    | nil => simp at h
    | cons b ys =>
      have h2 : ts.length = ys.length := by simpa using h
      cases b with
      | none =>
        simp only [validPairs, List.zip_cons_cons, List.filterMap_cons] at ih ⊢
        simpa using ih ys h2
      | some val =>
        simp only [validPairs, List.zip_cons_cons, List.filterMap_cons] at ih ⊢
        simpa using ih ys h2

lemma numValid_sortedRows (rows : List (ℚ × List (Option ℚ))) (j : ℕ) :
    numValid (sortedRows rows) j = numValid rows j := by
  have hp : List.Perm (sortedRows rows) rows := by
    rw [sortedRows]
    exact List.perm_insertionSort (fun a b => a.1 ≤ b.1) rows
  exact ((hp.map (fun row => row.2.getD j none)).filterMap id).length_eq

lemma channelOutput_valid_count (rows : List (ℚ × List (Option ℚ))) (j : ℕ) :
    (validPairs
      ((sortedRows rows).map (fun row => row.1 - baseTime rows))
      ((sortedRows rows).map (fun row => row.2.getD j none))).length =
      numValid rows j := by
  rw [validPairs_length_eq _ _ (by simp)]
  exact numValid_sortedRows rows j

/-- Claim C8: in every call of `interpolate_orbital_params` on a non-empty
frame, a channel with fewer than 2 valid (non-missing) samples yields an
output array that is the missing sentinel at every target epoch, of length
equal to the number of target epochs; this is contained per channel — the
call returns a result, every channel's output has the right length, and a
channel with at least 2 valid samples is still interpolated (its output
carries a value at every target epoch). -/
theorem insufficient_samples_sentinel (rows : List (ℚ × List (Option ℚ)))
    (cols : List String) (targets : List ℚ)
    (hr : rows ≠ []) (hc : cols ≠ []) :
    ∃ out, interpolate_orbital_params rows cols targets = some out ∧
      out.length = cols.length ∧
      ∀ j : ℕ, j < cols.length →
        (out.getD j ("", [])).2.length = targets.length ∧
        (numValid rows j < 2 →
          (out.getD j ("", [])).2 = targets.map (fun _ => none)) ∧
        (2 ≤ numValid rows j →
          ∀ x ∈ (out.getD j ("", [])).2, x ≠ none) := by
  refine ⟨_, by unfold interpolate_orbital_params; rw [if_neg (by simp [hr, hc])],
    by simp, ?_⟩
  intro j hj
  have hget : (List.map (fun nj =>
      (nj.2, channelOutput
        ((sortedRows rows).map (fun row => row.1 - baseTime rows))
        ((sortedRows rows).map (fun row => row.2.getD nj.1 none))
        (targets.map (fun t => t - baseTime rows)))) cols.enum).getD j ("", []) =
      (cols.getD j "", channelOutput
        ((sortedRows rows).map (fun row => row.1 - baseTime rows))
        ((sortedRows rows).map (fun row => row.2.getD j none))
        (targets.map (fun t => t - baseTime rows))) := by
    rw [List.getD_eq_getElem _ _ (by simpa using hj), List.getElem_map,
      List.getElem_enum, List.getD_eq_getElem _ _ hj]
  rw [hget]
  refine ⟨?_, ?_, ?_⟩
  · rw [channelOutput]
    split_ifs <;> simp
  · intro hlt
    rw [channelOutput, if_pos (by rw [channelOutput_valid_count]; exact hlt),
      List.map_map]
    rfl
  · intro hge
    rw [channelOutput, if_neg (by rw [channelOutput_valid_count]; omega)]
    intro x hx
    rcases List.mem_map.mp hx with ⟨t, _, rfl⟩
    simp

/-- Witness for claim C8: a concrete frame whose second column has no valid
samples (all-sentinel output) and whose first has two (interpolated output). -/
theorem insufficient_samples_sentinel_witness :
    ∃ out, interpolate_orbital_params
        [(0, [some 1, none]), (10, [some 2, none])] ["a", "b"] [5] = some out ∧
      out.length = (["a", "b"] : List String).length ∧
      ∀ j : ℕ, j < (["a", "b"] : List String).length →
        (out.getD j ("", [])).2.length = ([5] : List ℚ).length ∧
        (numValid [(0, [some 1, none]), (10, [some 2, none])] j < 2 →
          (out.getD j ("", [])).2 = ([5] : List ℚ).map (fun _ => none)) ∧
        (2 ≤ numValid [(0, [some 1, none]), (10, [some 2, none])] j →
          ∀ x ∈ (out.getD j ("", [])).2, x ≠ none) :=
  insufficient_samples_sentinel
    [(0, [some 1, none]), (10, [some 2, none])] ["a", "b"] [5]
    (by simp) (by simp)

lemma abs_cos_sub_cos (a b : ℝ) : |Real.cos a - Real.cos b| ≤ |a - b| := by
  rw [Real.cos_sub_cos]
  have h1 : |Real.sin ((a + b) / 2)| ≤ 1 := Real.abs_sin_le_one _
  have h2 : |Real.sin ((a - b) / 2)| ≤ |(a - b) / 2| := Real.abs_sin_le_abs
  have h3 : |(a - b) / 2| = |a - b| / 2 := by
    rw [abs_div]
    norm_num
  calc |(-2) * Real.sin ((a + b) / 2) * Real.sin ((a - b) / 2)|
      = 2 * |Real.sin ((a + b) / 2)| * |Real.sin ((a - b) / 2)| := by
        rw [abs_mul, abs_mul]
        norm_num
    _ ≤ 2 * 1 * (|a - b| / 2) := by
        apply mul_le_mul _ (h3 ▸ h2) (abs_nonneg _)
        · norm_num
        · apply mul_le_mul_of_nonneg_left h1
          norm_num
    _ = |a - b| := by ring

lemma abs_sub_le_of_mem_uIcc {x y t : ℝ} (ht : t ∈ Set.uIcc x y) :
    |x - t| ≤ |x - y| := by
  rcases le_total x y with h | h
  · rw [Set.uIcc_of_le h] at ht
    obtain ⟨h1, h2⟩ := ht
    rw [abs_of_nonpos (by linarith), abs_of_nonpos (by linarith)]
    linarith
  · rw [Set.uIcc_of_ge h] at ht
    obtain ⟨h1, h2⟩ := ht
    rw [abs_of_nonneg (by linarith), abs_of_nonneg (by linarith)]
    linarith

/-- Second-order mean-value bound for Kepler's function
`g t = t - e*sin t - M`: the first-order expansion of `g` around `x`,
evaluated at `Estar`, errs by at most `e·(x − Estar)²` (the second derivative
of `g` is `e·sin`, bounded by `e`). -/
lemma kepler_taylor (e M x Estar : ℝ) (he0 : 0 ≤ e) :
    |(Estar - e * Real.sin Estar - M) - (x - e * Real.sin x - M) -
      (1 - e * Real.cos x) * (Estar - x)| ≤ e * (x - Estar) ^ 2 := by
  have hf : ∀ t ∈ Set.uIcc x Estar,
      HasDerivWithinAt
        (fun s => s - e * Real.sin s - M - (1 - e * Real.cos x) * s)
        ((1 - e * Real.cos t) - (1 - e * Real.cos x)) (Set.uIcc x Estar) t := by
    intro t _
    have h1 : HasDerivAt (fun s : ℝ => s) 1 t := hasDerivAt_id t
    have h2 : HasDerivAt (fun s : ℝ => e * Real.sin s) (e * Real.cos t) t :=
      (Real.hasDerivAt_sin t).const_mul e
    have h3 : HasDerivAt (fun s : ℝ => (1 - e * Real.cos x) * s)
        (1 - e * Real.cos x) t := by
      simpa using (hasDerivAt_id t).const_mul (1 - e * Real.cos x)
    have h4 := ((h1.sub h2).sub_const M).sub h3
    have h5 : (1 : ℝ) - e * Real.cos t - (1 - e * Real.cos x) =
        (1 - e * Real.cos t) - (1 - e * Real.cos x) := by ring
    exact (h5 ▸ h4).hasDerivWithinAt
  have hbound : ∀ t ∈ Set.uIcc x Estar,
      ‖(1 - e * Real.cos t) - (1 - e * Real.cos x)‖ ≤ e * |x - Estar| := by
    intro t ht
    have h1 : |Real.cos x - Real.cos t| ≤ |x - t| := abs_cos_sub_cos x t
    have h2 : |x - t| ≤ |x - Estar| := abs_sub_le_of_mem_uIcc ht
    have h3 : (1 - e * Real.cos t) - (1 - e * Real.cos x) =
        e * (Real.cos x - Real.cos t) := by ring
    rw [h3, Real.norm_eq_abs, abs_mul, abs_of_nonneg he0]
    exact mul_le_mul_of_nonneg_left (le_trans h1 h2) he0
  have key := Convex.norm_image_sub_le_of_norm_hasDerivWithin_le hf hbound
    (convex_uIcc x Estar) Set.left_mem_uIcc Set.right_mem_uIcc
  rw [Real.norm_eq_abs, Real.norm_eq_abs] at key
  have heq : (Estar - e * Real.sin Estar - M) - (x - e * Real.sin x - M) -
      (1 - e * Real.cos x) * (Estar - x) =
      (Estar - e * Real.sin Estar - M - (1 - e * Real.cos x) * Estar) -
        (x - e * Real.sin x - M - (1 - e * Real.cos x) * x) := by ring
  rw [heq]
  calc |(Estar - e * Real.sin Estar - M - (1 - e * Real.cos x) * Estar) -
        (x - e * Real.sin x - M - (1 - e * Real.cos x) * x)|
      ≤ e * |x - Estar| * |Estar - x| := key
    _ = e * (x - Estar) ^ 2 := by
        rw [abs_sub_comm Estar x]
        rw [mul_assoc, abs_mul_abs_self]
        ring

/-- Quadratic contraction of one Newton step toward the true eccentric
anomaly `Estar` of mean anomaly `M = Estar − e·sin Estar`, valid at every
start point since `g'' = e·sin` is globally bounded by `e` and
`g' = 1 − e·cos ≥ 1 − e > 0` globally. -/
lemma newton_step_err (e M Estar : ℝ) (he0 : 0 ≤ e) (he1 : e < 1)
    (hM : M = Estar - e * Real.sin Estar) (x : ℝ) :
    |newtonNext Real.sin Real.cos M e x - Estar| ≤
      e / (1 - e) * (x - Estar) ^ 2 := by
  have hgp : 1 - e ≤ 1 - e * Real.cos x := by
    nlinarith [Real.cos_le_one x]
  have hgp0 : (0 : ℝ) < 1 - e * Real.cos x := by linarith
  have htay := kepler_taylor e M x Estar he0
  have hg0 : Estar - e * Real.sin Estar - M = 0 := by rw [hM]; ring
  rw [hg0] at htay
  have hnum : newtonNext Real.sin Real.cos M e x - Estar =
      (0 - (x - e * Real.sin x - M) - (1 - e * Real.cos x) * (Estar - x)) /
        (1 - e * Real.cos x) := by
    rw [newtonNext]
    field_simp
    ring
  rw [hnum, abs_div, abs_of_pos hgp0]
  rw [div_le_iff₀ hgp0]
  calc |0 - (x - e * Real.sin x - M) - (1 - e * Real.cos x) * (Estar - x)|
      ≤ e * (x - Estar) ^ 2 := htay
    _ ≤ e / (1 - e) * (x - Estar) ^ 2 * (1 - e * Real.cos x) := by
        rw [div_mul_eq_mul_div, div_mul_eq_mul_div, le_div_iff₀ (by linarith)]
        exact mul_le_mul_of_nonneg_left hgp (by positivity)

/-- All Newton iterates stay within `3/10` of `Estar` when `0 ≤ e < 3/10`. -/
lemma xseq_bound (e M Estar : ℝ) (he0 : 0 ≤ e) (he3 : e < 3 / 10)
    (hM : M = Estar - e * Real.sin Estar) :
    ∀ k, |xseq Real.sin Real.cos M e k - Estar| ≤ 3 / 10 := by
  have hstep : ∀ x : ℝ, |newtonNext Real.sin Real.cos M e x - Estar| ≤
      3 / 7 * (x - Estar) ^ 2 := by
    intro x
    have h := newton_step_err e M Estar he0 (by linarith) hM x
    have hc : e / (1 - e) ≤ 3 / 7 := by
      rw [div_le_div_iff (by linarith) (by norm_num)]
      linarith
    calc |newtonNext Real.sin Real.cos M e x - Estar|
        ≤ e / (1 - e) * (x - Estar) ^ 2 := h
      _ ≤ 3 / 7 * (x - Estar) ^ 2 :=
          mul_le_mul_of_nonneg_right hc (sq_nonneg _)
  intro k
  induction k with
  | zero =>
    have h0 : xseq Real.sin Real.cos M e 0 - Estar = -(e * Real.sin Estar) := by
      show M - Estar = _
      rw [hM]
      ring
    rw [h0, abs_neg, abs_mul, abs_of_nonneg he0]
    have := Real.abs_sin_le_one Estar
    nlinarith
  | succ k ih =>
    have h := hstep (xseq Real.sin Real.cos M e k)
    have habs : (xseq Real.sin Real.cos M e k - Estar) ^ 2 =
        |xseq Real.sin Real.cos M e k - Estar| ^ 2 := (sq_abs _).symm
    rw [habs] at h
    have hnn : (0 : ℝ) ≤ |xseq Real.sin Real.cos M e k - Estar| := abs_nonneg _
    show |newtonNext Real.sin Real.cos M e (xseq Real.sin Real.cos M e k) -
      Estar| ≤ 3 / 10
    nlinarith

/-- One Newton step contracts the error quadratically, stated on iterates. -/
lemma xseq_step (e M Estar : ℝ) (he0 : 0 ≤ e) (he3 : e < 3 / 10)
    (hM : M = Estar - e * Real.sin Estar) (k : ℕ) :
    |xseq Real.sin Real.cos M e (k + 1) - Estar| ≤
      3 / 7 * |xseq Real.sin Real.cos M e k - Estar| ^ 2 := by
  have h := newton_step_err e M Estar he0 (by linarith) hM
    (xseq Real.sin Real.cos M e k)
  have hc : e / (1 - e) ≤ 3 / 7 := by
    rw [div_le_div_iff (by linarith) (by norm_num)]
    linarith
  calc |xseq Real.sin Real.cos M e (k + 1) - Estar|
      ≤ e / (1 - e) * (xseq Real.sin Real.cos M e k - Estar) ^ 2 := h
    _ ≤ 3 / 7 * (xseq Real.sin Real.cos M e k - Estar) ^ 2 :=
        mul_le_mul_of_nonneg_right hc (sq_nonneg _)
    _ = 3 / 7 * |xseq Real.sin Real.cos M e k - Estar| ^ 2 := by
        rw [sq_abs]

/-- Linear decay of the iterate error by the factor `9/70`. -/
lemma xseq_decay (e M Estar : ℝ) (he0 : 0 ≤ e) (he3 : e < 3 / 10)
    (hM : M = Estar - e * Real.sin Estar) (k : ℕ) :
    |xseq Real.sin Real.cos M e (k + 1) - Estar| ≤
      9 / 70 * |xseq Real.sin Real.cos M e k - Estar| := by
  have h1 := xseq_step e M Estar he0 he3 hM k
  have h2 := xseq_bound e M Estar he0 he3 hM k
  have hnn : (0 : ℝ) ≤ |xseq Real.sin Real.cos M e k - Estar| := abs_nonneg _
  nlinarith

/-- From the fifth iterate on, the error is below `2e-14`. -/
lemma xseq_tail (e M Estar : ℝ) (he0 : 0 ≤ e) (he3 : e < 3 / 10)
    (hM : M = Estar - e * Real.sin Estar) :
    ∀ k, 4 ≤ k → |xseq Real.sin Real.cos M e k - Estar| ≤ 2e-14 := by
  have h0 := xseq_bound e M Estar he0 he3 hM 0
  have hn : ∀ j, (0 : ℝ) ≤ |xseq Real.sin Real.cos M e j - Estar| :=
    fun j => abs_nonneg _
  have h1 : |xseq Real.sin Real.cos M e 1 - Estar| ≤ 39 / 1000 := by
    have := xseq_step e M Estar he0 he3 hM 0
    nlinarith [hn 0]
  have h2 : |xseq Real.sin Real.cos M e 2 - Estar| ≤ 66 / 100000 := by
    have := xseq_step e M Estar he0 he3 hM 1
    nlinarith [hn 1]
  have h3 : |xseq Real.sin Real.cos M e 3 - Estar| ≤ 2e-7 := by
    have := xseq_step e M Estar he0 he3 hM 2
    nlinarith [hn 2]
  have h4 : |xseq Real.sin Real.cos M e 4 - Estar| ≤ 2e-14 := by
    have := xseq_step e M Estar he0 he3 hM 3
    nlinarith [hn 3]
  intro k hk
  induction k, hk using Nat.le_induction with
  | base => exact h4
  | succ k hk ih =>
    have := xseq_decay e M Estar he0 he3 hM k
    nlinarith [hn k]

/-- Claim C6: for every eccentricity `e ∈ [0, 0.3)` and eccentric anomaly
`E ∈ [0, 2π)`, computing `M = E − e·sin E` and then running `kepler_solver`
on `M` recovers `E` to within `1e-9` (round-trip of the Kepler solve, in the
real-arithmetic model of the floating-point code). -/
theorem kepler_round_trip (e Estar : ℝ) (he0 : 0 ≤ e) (he3 : e < 3 / 10)
    (hE0 : 0 ≤ Estar) (hE2 : Estar < 2 * Real.pi) :
    |kepler_solver Real.sin Real.cos (Estar - e * Real.sin Estar) e - Estar| ≤
      1e-9 := by
  set M := Estar - e * Real.sin Estar with hM
  obtain ⟨k, hk1, hk100, hkeq, _, hlast⟩ :=
    keplerGo_spec Real.sin Real.cos M e max_iter (by norm_num [max_iter]) 0
  have hres : kepler_solver Real.sin Real.cos M e = xseq Real.sin Real.cos M e k :=
    hkeq
  rw [hres]
  rcases hlast with hsmall | h100
  · obtain ⟨j, rfl⟩ : ∃ j, k = j + 1 := ⟨k - 1, by omega⟩
    have hd : |xseq Real.sin Real.cos M e (j + 1) -
        xseq Real.sin Real.cos M e j| < 1e-12 := by
      have : (1e-12 : ℝ) = tol := by rw [tol]
      rw [this]
      simpa using hsmall
    have h970 := xseq_decay e M Estar he0 he3 hM j
    have htr : |xseq Real.sin Real.cos M e j - Estar| ≤
        1e-12 + |xseq Real.sin Real.cos M e (j + 1) - Estar| := by
      have habc := abs_sub_le (xseq Real.sin Real.cos M e j)
        (xseq Real.sin Real.cos M e (j + 1)) Estar
      rw [abs_sub_comm (xseq Real.sin Real.cos M e j)
        (xseq Real.sin Real.cos M e (j + 1))] at habc
      linarith
    linarith
  · have : k = 100 := by simpa [max_iter] using h100
    subst this
    have := xseq_tail e M Estar he0 he3 hM 100 (by norm_num)
    linarith

/-- Witness for claim C6, at the concrete input `e = 1/10`, `E = 1`. -/
theorem kepler_round_trip_witness :
    |kepler_solver Real.sin Real.cos (1 - 1 / 10 * Real.sin 1) (1 / 10) - 1| ≤
      1e-9 :=
  kepler_round_trip (1 / 10) 1 (by norm_num) (by norm_num) (by norm_num)
    (by nlinarith [Real.pi_gt_d2])

end SatPos
